import Mathlib

/-!
Shallow embedding of `aptos-framework/releases/src/lib.rs`, the release-module
loader utility.  External collaborators (the release fetcher, the module
deserializer, the filesystem) are modelled as an environment `Env`; the two
process-wide `Lazy` statics become explicit state passing over `ProcState`,
and a `panic` (`unwrap` / `expect`) is modelled as the result `none`.
-/

namespace AptosFrameworkReleases

/-- Raw bytes of one serialized module (Rust `Vec<u8>`), bytes as naturals. -/
abbrev Blob := List Nat

/-- Release family handed to `ReleaseFetcher::new`; the source only ever uses
`Release::Aptos`. -/
inductive Release where
  | Aptos
deriving DecidableEq, Repr

/-- External collaborators of the loader, treated as black boxes.
`M` is the (opaque to this crate) type `CompiledModule`.
* `fetch r name`    models `ReleaseFetcher::new(r, name).module_blobs()`;
* `deserialize b`   models `CompiledModule::deserialize(b)`;
* `enumerate paths` models the raw filesystem walk underlying `find_filenames`:
  every file reachable from the given paths, in enumeration order;
* `read p`          models `std::fs::read(p)`, `none` when the read fails. -/
structure Env (M : Type) where
  fetch : Release → String → Except String (List Blob)
  deserialize : Blob → Except String M
  enumerate : List String → Except String (List String)
  read : String → Option Blob

/-- State of the two process-wide `Lazy` statics.  `blobsCache` is
`CURRENT_MODULE_BLOBS`, `modulesCache` is `CURRENT_MODULES` (`none` = not yet
forced).  `fetchCount` instruments how many times the underlying fetcher has
been invoked (the "call-counting stub fetcher" observation of the spec). -/
structure ProcState (M : Type) where
  blobsCache : Option (List Blob)
  modulesCache : Option (List M)
  fetchCount : Nat
deriving Repr, DecidableEq

/-- Process start: both statics unforced, no fetch performed. -/
def initState {M : Type} : ProcState M := ⟨none, none, 0⟩

/-- Embedding of `load_modules_from_release`:
`ReleaseFetcher::new(Release::Aptos, release_name).module_blobs()`.
The function does not touch the statics, so the state passes through. -/
def load_modules_from_release {M : Type} (env : Env M) (s : ProcState M)
    (release_name : String) : Except String (List Blob) × ProcState M :=
  (env.fetch Release.Aptos release_name, s)

/-- Forcing of `CURRENT_MODULE_BLOBS`:
`Lazy::new(|| load_modules_from_release("current").unwrap())`.
`none` models the `unwrap` panic aborting the process. -/
def forceBlobs {M : Type} (env : Env M) (s : ProcState M) :
    Option (List Blob × ProcState M) :=
  match s.blobsCache with
  | some bs => some (bs, s)
  | none =>
    match env.fetch Release.Aptos "current" with
    | Except.ok bs =>
        some (bs, { s with blobsCache := some bs, fetchCount := s.fetchCount + 1 })
    | Except.error _ => none

/-- Embedding of `.iter().map(|blob| CompiledModule::deserialize(blob).unwrap()).collect()`:
deserializes each blob in order, `none` as soon as one fails. -/
def deserializeAll {M : Type} (d : Blob → Except String M) :
    List Blob → Option (List M)
  | [] => some []
  | b :: bs =>
    match d b with
    | Except.error _ => none
    | Except.ok m =>
      match deserializeAll d bs with
      | none => none
      | some ms => some (m :: ms)

/-- Forcing of `CURRENT_MODULES`: derived from `CURRENT_MODULE_BLOBS` (forcing
it first if needed), deserializing every blob in order. -/
def forceModules {M : Type} (env : Env M) (s : ProcState M) :
    Option (List M × ProcState M) :=
  match s.modulesCache with
  | some ms => some (ms, s)
  | none =>
    match forceBlobs env s with
    | none => none
    | some (bs, s1) =>
      match deserializeAll env.deserialize bs with
      | none => none
      | some ms => some (ms, { s1 with modulesCache := some ms })

/-- Embedding of `current_modules()`: a read of the `CURRENT_MODULES` static. -/
def current_modules {M : Type} (env : Env M) (s : ProcState M) :
    Option (List M × ProcState M) :=
  forceModules env s

/-- Embedding of `current_module_blobs()`: a read of `CURRENT_MODULE_BLOBS`. -/
def current_module_blobs {M : Type} (env : Env M) (s : ProcState M) :
    Option (List Blob × ProcState M) :=
  forceBlobs env s

/-- The compiled-module file extension (`MOVE_COMPILED_EXTENSION = "mv"`). -/
def MOVE_COMPILED_EXTENSION : String := "mv"

/-- Modelled from the spec: `extension_equals` lives in the external crate
`move_command_line_common`, not under this repository; per the spec it tests
whether the path's file extension equals the given extension. -/
def extension_equals (path ext : String) : Bool :=
  let file := (path.data.reverse.takeWhile (fun c => c ≠ '/')).reverse
  let revfile := file.reverse
  if revfile.contains '.' then
    (revfile.dropWhile (fun c => c ≠ '.')).length > 1 &&
      (revfile.takeWhile (fun c => c ≠ '.')).reverse == ext.data
  else false

/-- Modelled from the spec: `find_filenames` lives in the external crate
`move_command_line_common`, not under this repository; per the spec it
recursively enumerates all files reachable from the given paths and keeps
those satisfying the predicate, in enumeration order, or fails if the
enumeration itself fails. -/
def find_filenames {M : Type} (env : Env M) (paths : List String)
    (p : String → Bool) : Except String (List String) :=
  match env.enumerate paths with
  | Except.error e => Except.error e
  | Except.ok fs => Except.ok (fs.filter p)

/-- Embedding of `.iter().map(|file_name| std::fs::read(file_name).unwrap()).collect()`:
reads each file in order, `none` (panic) as soon as one read fails. -/
def readAll (read : String → Option Blob) : List String → Option (List Blob)
  | [] => some []
  | f :: fs =>
    match read f with
    | none => none
    | some b =>
      match readAll read fs with
      | none => none
      | some bs => some (b :: bs)

/-- Embedding of `load_modules_from_paths`: `find_filenames` filtered by the
compiled-module extension, `.expect(..)` on the enumeration (panic = `none`),
then each matching file read whole with `unwrap` on failure. -/
def load_modules_from_paths {M : Type} (env : Env M) (paths : List String) :
    Option (List Blob) :=
  match find_filenames env paths (fun p => extension_equals p MOVE_COMPILED_EXTENSION) with
  | Except.error _ => none
  | Except.ok files => readAll env.read files

/-- Cache consistency: a populated `blobsCache` is what the fetcher returned
for "current", and a populated `modulesCache` is the deserialization of a
populated `blobsCache`.  Holds at `initState` and is maintained by the API. -/
def WF {M : Type} (env : Env M) (s : ProcState M) : Prop :=
  (∀ bs, s.blobsCache = some bs → env.fetch Release.Aptos "current" = Except.ok bs) ∧
  (∀ ms, s.modulesCache = some ms →
    ∃ bs, s.blobsCache = some bs ∧ deserializeAll env.deserialize bs = some ms)

/-- Concrete sample environment (with `CompiledModule` instantiated to `Nat`):
a release store holding only "current" with two blobs, a deserializer taking a
blob to its length, and a tiny filesystem under directory `d`. -/
def envW : Env Nat where
  fetch := fun _ name =>
    if name = "current" then Except.ok [[0], [1, 2]] else Except.error "unknown release"
  deserialize := fun b => Except.ok b.length
  enumerate := fun ps =>
    if ps = ["d"] then Except.ok ["d/a.mv", "d/b.txt", "d/c.mv"]
    else if ps = ["empty"] then Except.ok []
    else Except.error "bad path"
  read := fun f =>
    if f = "d/a.mv" then some [7] else if f = "d/c.mv" then some [8, 9] else none

/-- State of `envW`'s process after the caches have been populated. -/
def sW : ProcState Nat := ⟨some [[0], [1, 2]], some [1, 2], 1⟩

/-- On-disk contents of the matching files of `envW`. -/
def cW (f : String) : Blob := if f = "d/a.mv" then [7] else [8, 9]

/-- Sample environment whose second matching file cannot be read. -/
def envR : Env Nat where
  fetch := fun _ _ => Except.error "unused"
  deserialize := fun b => Except.ok b.length
  enumerate := fun ps =>
    if ps = ["d"] then Except.ok ["d/a.mv", "d/e.mv"] else Except.error "bad path"
  read := fun f => if f = "d/a.mv" then some [7] else none

/-- Elimination principle for a successful `forceBlobs`: either the blobs were
already cached and the state is untouched, or the cache was empty, the fetch
succeeded, and the state records the new cache and one more fetch. -/
theorem forceBlobs_eq_some {M : Type} {env : Env M} {s : ProcState M}
    {bs : List Blob} {s1 : ProcState M}
    (h : forceBlobs env s = some (bs, s1)) :
    (s.blobsCache = some bs ∧ s1 = s) ∨
    (s.blobsCache = none ∧ env.fetch Release.Aptos "current" = Except.ok bs ∧
      s1 = { s with blobsCache := some bs, fetchCount := s.fetchCount + 1 }) := by
  unfold forceBlobs at h
  split at h
  next bs0 hb =>
    simp only [Option.some.injEq, Prod.mk.injEq] at h
    obtain ⟨rfl, rfl⟩ := h
    exact Or.inl ⟨hb, rfl⟩
  next hb =>
    split at h
    next bs0 hf =>
      simp only [Option.some.injEq, Prod.mk.injEq] at h
      obtain ⟨rfl, rfl⟩ := h
      exact Or.inr ⟨hb, hf, rfl⟩
    next e hf => simp at h

/-- A successful `forceBlobs` leaves the blobs cached in the returned state. -/
theorem forceBlobs_blobsCache {M : Type} {env : Env M} {s : ProcState M}
    {bs : List Blob} {s1 : ProcState M}
    (h : forceBlobs env s = some (bs, s1)) : s1.blobsCache = some bs := by
  rcases forceBlobs_eq_some h with ⟨hc, rfl⟩ | ⟨_, _, rfl⟩
  · exact hc
  · rfl

/-- Elimination principle for a successful `forceModules`: either the modules
were already cached, or the cache was empty and they were computed by forcing
the blobs and deserializing every one of them. -/
theorem forceModules_eq_some {M : Type} {env : Env M} {s : ProcState M}
    {ms : List M} {s' : ProcState M}
    (h : forceModules env s = some (ms, s')) :
    (s.modulesCache = some ms ∧ s' = s) ∨
    (s.modulesCache = none ∧ ∃ bs s1, forceBlobs env s = some (bs, s1) ∧
      deserializeAll env.deserialize bs = some ms ∧
      s' = { s1 with modulesCache := some ms }) := by
  unfold forceModules at h
  split at h
  next ms0 hm =>
    simp only [Option.some.injEq, Prod.mk.injEq] at h
    obtain ⟨rfl, rfl⟩ := h
    exact Or.inl ⟨hm, rfl⟩
  next hm =>
    split at h
    next hfb => simp at h
    next bs0 s1 hfb =>
      split at h
      next hd => simp at h
      next ms0 hd =>
        simp only [Option.some.injEq, Prod.mk.injEq] at h
        obtain ⟨rfl, rfl⟩ := h
        exact Or.inr ⟨hm, bs0, s1, hfb, hd, rfl⟩

/-- Reading the `CURRENT_MODULES` static when it is already populated returns
the cached value and leaves the state untouched. -/
theorem current_modules_cached {M : Type} (env : Env M) (s : ProcState M)
    (ms : List M) (h : s.modulesCache = some ms) :
    current_modules env s = some (ms, s) := by
  simp [current_modules, forceModules, h]

/-- Reading the `CURRENT_MODULE_BLOBS` static when it is already populated
returns the cached value and leaves the state untouched. -/
theorem current_module_blobs_cached {M : Type} (env : Env M) (s : ProcState M)
    (bs : List Blob) (h : s.blobsCache = some bs) :
    current_module_blobs env s = some (bs, s) := by
  simp [current_module_blobs, forceBlobs, h]

/-- A successful `deserializeAll` yields one module per blob, in order, each
the successful deserialization of the corresponding blob. -/
theorem deserializeAll_spec {M : Type} (d : Blob → Except String M) :
    ∀ (bs : List Blob) (ms : List M), deserializeAll d bs = some ms →
      ms.length = bs.length ∧
      ∀ i (hb : i < bs.length) (hm : i < ms.length),
        d (bs.get ⟨i, hb⟩) = Except.ok (ms.get ⟨i, hm⟩) := by
  intro bs
  induction bs with
  | nil =>
    intro ms h
    simp only [deserializeAll, Option.some.injEq] at h
    subst h
    exact ⟨rfl, fun i hb _ => absurd hb (by simp)⟩
  | cons b bs ih =>
    intro ms h
    simp only [deserializeAll] at h
    cases hd : d b with
    | error e => rw [hd] at h; simp at h
    | ok m =>
      rw [hd] at h
      cases hr : deserializeAll d bs with
      | none => rw [hr] at h; simp at h
      | some ms0 =>
        rw [hr] at h
        simp only [Option.some.injEq] at h
        subst h
        obtain ⟨hlen, hget⟩ := ih ms0 hr
        refine ⟨by simp [hlen], ?_⟩
        intro i hb hm
        cases i with
        | zero => simpa using hd
        | succ j =>
          have hb' : j < bs.length := by simpa using hb
          have hm' : j < ms0.length := by simpa using hm
          simpa using hget j hb' hm'

/-- When every file in the list reads back its contents, `readAll` returns
exactly those contents, in order. -/
theorem readAll_map {read : String → Option Blob} (g : String → Blob) :
    ∀ (fs : List String), (∀ f ∈ fs, read f = some (g f)) →
      readAll read fs = some (fs.map g) := by
  intro fs
  induction fs with
  | nil => intro _; simp [readAll]
  | cons f fs ih =>
    intro h
    have hf : read f = some (g f) := h f (by simp)
    have hrest := ih fun x hx => h x (by simp [hx])
    simp [readAll, hf, hrest]

/-- When any file in the list fails to read, `readAll` fails. -/
theorem readAll_none {read : String → Option Blob} :
    ∀ (fs : List String) (f : String), f ∈ fs → read f = none →
      readAll read fs = none := by
  intro fs
  induction fs with
  | nil => intro f hf _; simp at hf
  | cons x fs ih =>
    intro f hf hnone
    rcases List.mem_cons.mp hf with rfl | hmem
    · simp [readAll, hnone]
    · cases hx : read x with
      | none => simp [readAll, hx]
      | some b => simp [readAll, hx, ih f hmem hnone]

/-- The sample environment's start state satisfies the cache invariant. -/
theorem wfW : WF envW initState := by
  constructor <;> intro x hx <;> simp [initState] at hx

/-- C1: the two cache tiers correspond positionally: whenever a read of
`current_modules` succeeds, in the resulting state `current_module_blobs`
returns a blob list of the same length whose element `i` deserializes exactly
to module `i`. -/
theorem tier_correspondence {M : Type} (env : Env M) (s : ProcState M)
    (ms : List M) (s' : ProcState M) (hwf : WF env s)
    (h : current_modules env s = some (ms, s')) :
    ∃ bs, current_module_blobs env s' = some (bs, s') ∧
      ms.length = bs.length ∧
      ∀ i (hb : i < bs.length) (hm : i < ms.length),
        env.deserialize (bs.get ⟨i, hb⟩) = Except.ok (ms.get ⟨i, hm⟩) := by
  rcases forceModules_eq_some h with ⟨hm, rfl⟩ | ⟨hm, bs, s1, hfb, hd, rfl⟩
  · obtain ⟨bs, hb, hd⟩ := hwf.2 ms hm
    obtain ⟨hlen, hget⟩ := deserializeAll_spec env.deserialize bs ms hd
    exact ⟨bs, current_module_blobs_cached env _ bs hb, hlen, hget⟩
  · have hb : s1.blobsCache = some bs := forceBlobs_blobsCache hfb
    obtain ⟨hlen, hget⟩ := deserializeAll_spec env.deserialize bs ms hd
    exact ⟨bs, current_module_blobs_cached env _ bs hb, hlen, hget⟩

/-- C1 witness: the correspondence at the sample environment after the first
successful read of `current_modules`. -/
theorem tier_correspondence_witness :
    WF envW initState ∧
    current_modules envW initState = some ([1, 2], sW) ∧
    ∃ bs, current_module_blobs envW sW = some (bs, sW) ∧
      ([1, 2] : List Nat).length = bs.length ∧
      ∀ i (hb : i < bs.length) (hm : i < ([1, 2] : List Nat).length),
        envW.deserialize (bs.get ⟨i, hb⟩) = Except.ok (([1, 2] : List Nat).get ⟨i, hm⟩) :=
  ⟨wfW, by decide, tier_correspondence envW initState [1, 2] sW wfW (by decide)⟩

/-- C2: `current_modules` is memoized: after a successful call, a second call
returns the identical cached sequence with the state unchanged (so no load and
no deserialization is re-performed), the cache holds exactly that sequence,
the underlying fetch ran at most once during the call, and not at all when the
blob tier was already populated. -/
theorem current_modules_memoized {M : Type} (env : Env M) (s : ProcState M)
    (ms : List M) (s' : ProcState M)
    (h : current_modules env s = some (ms, s')) :
    current_modules env s' = some (ms, s') ∧
    s'.modulesCache = some ms ∧
    s'.fetchCount ≤ s.fetchCount + 1 ∧
    (s.blobsCache ≠ none → s'.fetchCount = s.fetchCount) := by
  rcases forceModules_eq_some h with ⟨hm, rfl⟩ | ⟨hm, bs, s1, hfb, hd, rfl⟩
  · exact ⟨current_modules_cached env _ ms hm, hm, Nat.le_succ _, fun _ => rfl⟩
  · have hmc : ({ s1 with modulesCache := some ms } : ProcState M).modulesCache = some ms := rfl
    refine ⟨current_modules_cached env _ ms hmc, hmc, ?_, ?_⟩
    · rcases forceBlobs_eq_some hfb with ⟨_, rfl⟩ | ⟨_, _, rfl⟩
      · exact Nat.le_succ _
      · exact Nat.le_refl _
    · intro hne
      rcases forceBlobs_eq_some hfb with ⟨_, rfl⟩ | ⟨hnone, _, rfl⟩
      · rfl
      · exact absurd hnone hne

/-- C2 witness: memoization at the sample environment's first call. -/
theorem current_modules_memoized_witness :
    current_modules envW initState = some ([1, 2], sW) ∧
    (current_modules envW sW = some ([1, 2], sW) ∧
      sW.modulesCache = some [1, 2] ∧
      sW.fetchCount ≤ (initState (M := Nat)).fetchCount + 1 ∧
      ((initState (M := Nat)).blobsCache ≠ none →
        sW.fetchCount = (initState (M := Nat)).fetchCount)) :=
  ⟨by decide, current_modules_memoized envW initState [1, 2] sW (by decide)⟩

/-- C3: `load_modules_from_release` returns the fetcher's blob list on success
and a failure carrying the fetcher's error on failure; its `Except` result
type makes the error recoverable by the caller (no abort, no empty-list
success on failure). -/
theorem load_modules_from_release_error_propagation {M : Type} (env : Env M)
    (s : ProcState M) (name : String) :
    (∀ bs, env.fetch Release.Aptos name = Except.ok bs →
      (load_modules_from_release env s name).1 = Except.ok bs) ∧
    (∀ e, env.fetch Release.Aptos name = Except.error e →
      (load_modules_from_release env s name).1 = Except.error e) :=
  ⟨fun _ h => h, fun _ h => h⟩

/-- C3 witness: an unknown release name yields the fetcher's error as a
recoverable failure value. -/
theorem load_modules_from_release_error_propagation_witness :
    envW.fetch Release.Aptos "bogus" = Except.error "unknown release" ∧
    (load_modules_from_release envW initState "bogus").1 =
      Except.error "unknown release" :=
  ⟨rfl, (load_modules_from_release_error_propagation envW initState "bogus").2
    "unknown release" rfl⟩

/-- C4: on its first invocation `current_modules` loads the release "current"
and deserializes each blob in order; a failed load or any failed
deserialization aborts (result `none`), and a fully successful one caches both
tiers after exactly one fetch. -/
theorem current_modules_first_call_fatal {M : Type} (env : Env M) :
    (∀ e, env.fetch Release.Aptos "current" = Except.error e →
      current_modules env (initState (M := M)) = none) ∧
    (∀ bs, env.fetch Release.Aptos "current" = Except.ok bs →
      deserializeAll env.deserialize bs = none →
      current_modules env (initState (M := M)) = none) ∧
    (∀ bs ms, env.fetch Release.Aptos "current" = Except.ok bs →
      deserializeAll env.deserialize bs = some ms →
      current_modules env (initState (M := M)) = some (ms, ⟨some bs, some ms, 1⟩)) := by
  refine ⟨?_, ?_, ?_⟩
  · intro e he
    simp [current_modules, forceModules, forceBlobs, initState, he]
  · intro bs hb hd
    simp [current_modules, forceModules, forceBlobs, initState, hb, hd]
  · intro bs ms hb hd
    simp [current_modules, forceModules, forceBlobs, initState, hb, hd]

/-- C4 witness: the sample environment's successful first call. -/
theorem current_modules_first_call_fatal_witness :
    envW.fetch Release.Aptos "current" = Except.ok [[0], [1, 2]] ∧
    deserializeAll envW.deserialize [[0], [1, 2]] = some [1, 2] ∧
    current_modules envW (initState (M := Nat)) =
      some ([1, 2], ⟨some [[0], [1, 2]], some [1, 2], 1⟩) :=
  ⟨rfl, rfl, (current_modules_first_call_fatal envW).2.2 [[0], [1, 2]] [1, 2] rfl rfl⟩

/-- C5: when enumeration succeeds and every matching file reads back its
contents, `load_modules_from_paths` returns exactly one byte sequence per file
with the compiled-module extension, in enumeration order, each byte-for-byte
the file's on-disk contents. -/
theorem load_modules_from_paths_reads_matching_files {M : Type} (env : Env M)
    (paths : List String) (fs : List String) (contents : String → Blob)
    (henum : env.enumerate paths = Except.ok fs)
    (hread : ∀ f ∈ fs.filter (fun p => extension_equals p MOVE_COMPILED_EXTENSION),
      env.read f = some (contents f)) :
    load_modules_from_paths env paths =
      some ((fs.filter (fun p => extension_equals p MOVE_COMPILED_EXTENSION)).map contents) := by
  unfold load_modules_from_paths find_filenames
  rw [henum]
  exact readAll_map contents _ hread

/-- C5 witness: in the sample filesystem, directory `d` holds three files of
which two match the extension, and exactly their contents come back in order. -/
theorem load_modules_from_paths_reads_matching_files_witness :
    envW.enumerate ["d"] = Except.ok ["d/a.mv", "d/b.txt", "d/c.mv"] ∧
    (∀ f ∈ (["d/a.mv", "d/b.txt", "d/c.mv"].filter
        (fun p => extension_equals p MOVE_COMPILED_EXTENSION)),
      envW.read f = some (cW f)) ∧
    load_modules_from_paths envW ["d"] = some [[7], [8, 9]] :=
  ⟨rfl, by decide, load_modules_from_paths_reads_matching_files envW ["d"]
    ["d/a.mv", "d/b.txt", "d/c.mv"] cW rfl (by decide)⟩

/-- C6: `load_modules_from_paths` aborts (result `none`) when the enumeration
fails or when any single matching file cannot be read; it never skips a file
and never returns a partial result. -/
theorem load_modules_from_paths_fatal_on_failure {M : Type} (env : Env M)
    (paths : List String) :
    (∀ e, env.enumerate paths = Except.error e →
      load_modules_from_paths env paths = none) ∧
    (∀ fs f, env.enumerate paths = Except.ok fs →
      f ∈ fs.filter (fun p => extension_equals p MOVE_COMPILED_EXTENSION) →
      env.read f = none →
      load_modules_from_paths env paths = none) := by
  constructor
  · intro e he
    unfold load_modules_from_paths find_filenames
    rw [he]
  · intro fs f henum hmem hread
    unfold load_modules_from_paths find_filenames
    rw [henum]
    exact readAll_none _ f hmem hread

/-- C6 witness: a matching file whose read fails aborts the whole call. -/
theorem load_modules_from_paths_fatal_on_failure_witness :
    envR.enumerate ["d"] = Except.ok ["d/a.mv", "d/e.mv"] ∧
    "d/e.mv" ∈ (["d/a.mv", "d/e.mv"].filter
      (fun p => extension_equals p MOVE_COMPILED_EXTENSION)) ∧
    envR.read "d/e.mv" = none ∧
    load_modules_from_paths envR ["d"] = none :=
  ⟨rfl, by decide, rfl, (load_modules_from_paths_fatal_on_failure envR ["d"]).2
    ["d/a.mv", "d/e.mv"] "d/e.mv" rfl (by decide) rfl⟩

/-- C7: `current_module_blobs` has the same fatal-on-failure first-read
contract as `current_modules` and returns the raw blobs: from the start state
a failed fetch aborts, a successful fetch returns and caches exactly the
fetched blobs, and after a first successful `current_modules` call the blob
tier is already populated, so `current_module_blobs` is a pure read of the
shared tier. -/
theorem current_module_blobs_contract {M : Type} (env : Env M) :
    (∀ e, env.fetch Release.Aptos "current" = Except.error e →
      current_module_blobs env (initState (M := M)) = none) ∧
    (∀ bs, env.fetch Release.Aptos "current" = Except.ok bs →
      current_module_blobs env (initState (M := M)) = some (bs, ⟨some bs, none, 1⟩)) ∧
    (∀ ms s', current_modules env (initState (M := M)) = some (ms, s') →
      ∃ bs, env.fetch Release.Aptos "current" = Except.ok bs ∧
        current_module_blobs env s' = some (bs, s')) := by
  refine ⟨?_, ?_, ?_⟩
  · intro e he
    simp [current_module_blobs, forceBlobs, initState, he]
  · intro bs hb
    simp [current_module_blobs, forceBlobs, initState, hb]
  · intro ms s' h
    rcases forceModules_eq_some h with ⟨hm, rfl⟩ | ⟨hm, bs, s1, hfb, hd, rfl⟩
    · simp [initState] at hm
    · rcases forceBlobs_eq_some hfb with ⟨hc, rfl⟩ | ⟨_, hf, rfl⟩
      · simp [initState] at hc
      · exact ⟨bs, hf, current_module_blobs_cached env _ bs rfl⟩

/-- C7 witness: after the sample environment's first `current_modules` call,
the blob tier is read back without another fetch. -/
theorem current_module_blobs_contract_witness :
    current_modules envW (initState (M := Nat)) = some ([1, 2], sW) ∧
    (∃ bs, envW.fetch Release.Aptos "current" = Except.ok bs ∧
      current_module_blobs envW sW = some (bs, sW)) :=
  ⟨by decide, (current_module_blobs_contract envW).2.2 [1, 2] sW (by decide)⟩

/-- C9: `load_modules_from_release` queries the fetcher with the fixed
namespace `Release.Aptos` and passes the release name through unchanged, for
every name, with no validation. -/
theorem load_modules_from_release_passthrough {M : Type} (env : Env M)
    (s : ProcState M) (name : String) :
    (load_modules_from_release env s name).1 = env.fetch Release.Aptos name := rfl

/-- C10: `load_modules_from_release` neither reads nor populates the
process-wide caches: the state is returned unchanged, so what
`current_modules` and `current_module_blobs` observe is unaffected by the
call, for every release name. -/
theorem load_modules_from_release_frame {M : Type} (env : Env M)
    (s : ProcState M) (name : String) :
    (load_modules_from_release env s name).2 = s ∧
    current_modules env (load_modules_from_release env s name).2 =
      current_modules env s ∧
    current_module_blobs env (load_modules_from_release env s name).2 =
      current_module_blobs env s :=
  ⟨rfl, rfl, rfl⟩

end AptosFrameworkReleases
